import Mathlib

/-!
Formal model of the express-wg WireGuard management service.

This file gives a shallow embedding, in Lean, of the core logic of the
repository: the peer/server/MTU-profile data model with its save hooks
(src/unnamed/part_001, src/server/models/Server.js,
src/server/models/MTUProfile.js) and the service operations
(src/server/wireguard.js).  JavaScript strings are modelled as Lean
strings (a structure over a list of characters); JavaScript numbers that
carry timestamps, latencies or uptimes are modelled as rationals;
machine-level collaborators (shell commands, the live WireGuard state,
key generation) are modelled as explicit parameters.  Mongoose documents
become Lean structures and a collection becomes a list of structures;
document save runs the translated pre/post save middleware, while
updateMany/findByIdAndUpdate bypass the document middleware, exactly as
in Mongoose.
-/

/-! ## JavaScript string primitives

Translations of the JavaScript string operations the source uses:
split with a one-character separator, split with the two-character
separator used for lists, join, trim, parseInt.
-/

/-- Model of JavaScript str.split(sep) for a one-character separator sep,
using List.splitOn on the character data. -/
def jsSplitChar (c : Char) (s : String) : List String :=
  (s.data.splitOn c).map String.mk

/-- Model of JavaScript arr.join(sep) for a one-character separator. -/
def jsJoinChar (c : Char) (l : List String) : String :=
  String.mk ([c].intercalate (l.map String.data))

/-- Fuel-indexed split on a two-character separator (the source splits
DNS and allowed-IP lists on a comma followed by a space).  The fuel is
instantiated with the length of the list, which always suffices. -/
def splitOnSeqF (c₀ c₁ : Char) : Nat → List Char → List (List Char)
  | _, [] => [[]]
  | 0, l => [l]
  | _ + 1, [a] => [[a]]
  | fuel + 1, a :: b :: rest =>
    if a = c₀ ∧ b = c₁ then
      [] :: splitOnSeqF c₀ c₁ fuel rest
    else
      match splitOnSeqF c₀ c₁ fuel (b :: rest) with
      | [] => [[a]]
      | g :: gs => (a :: g) :: gs

/-- Join with a two-character separator. -/
def joinSeq (c₀ c₁ : Char) : List (List Char) → List Char
  | [] => []
  | [g] => g
  | g :: g₂ :: gs => g ++ c₀ :: c₁ :: joinSeq c₀ c₁ (g₂ :: gs)

/-- Model of JavaScript str.split with the two-character separator
consisting of a comma and a space. -/
def jsSplitCommaSpace (s : String) : List String :=
  (splitOnSeqF ',' ' ' s.data.length s.data).map String.mk

/-- Model of JavaScript arr.join with the comma-space separator. -/
def jsJoinCommaSpace (l : List String) : String :=
  String.mk (joinSeq ',' ' ' (l.map String.data))

/-- Whitespace trimming on character data: drop whitespace from the
front, then from the back. -/
def jsTrimChars (l : List Char) : List Char :=
  ((l.dropWhile Char.isWhitespace).reverse.dropWhile Char.isWhitespace).reverse

/-- Model of JavaScript str.trim(). -/
def jsTrim (s : String) : String :=
  String.mk (jsTrimChars s.data)

/-- Boolean test that the first list is an initial segment of the
second; used to model str.startsWith and str.endsWith. -/
def leadsWith : List Char → List Char → Bool
  | [], _ => true
  | _ :: _, [] => false
  | a :: as, b :: bs => a == b && leadsWith as bs

/-- Model of JavaScript str.startsWith(pre). -/
def startsWithStr (pre s : String) : Bool :=
  leadsWith pre.data s.data

/-- Model of JavaScript str.endsWith(suf). -/
def endsWithStr (suf s : String) : Bool :=
  leadsWith suf.data.reverse s.data.reverse

/-- Numeric value of a list of decimal digit characters. -/
def digitsVal (l : List Char) : Nat :=
  l.foldl (fun n c => 10 * n + (c.toNat - 48)) 0

/-- Model of JavaScript parseInt on a decimal string: skip leading
whitespace, read the longest run of digits, fail when there is none. -/
def jsParseInt (s : String) : Option Nat :=
  let ds := (s.data.dropWhile Char.isWhitespace).takeWhile Char.isDigit
  if ds = [] then none else some (digitsVal ds)

/-- Model of the JavaScript idiom parseInt(x) || d, where both a failed
parse (NaN) and a zero result fall back to the default d. -/
def jsParseIntOr (d : Nat) (s : Option String) : Nat :=
  match s with
  | some v =>
    match jsParseInt v with
    | some n => if n ≠ 0 then n else d
    | none => d
  | none => d

/-- Model of the JavaScript idiom x || d on an optional string, where
both a missing value and the empty string fall back to the default d. -/
def jsOrS (v : Option String) (d : String) : String :=
  match v with
  | some s => if s ≠ "" then s else d
  | none => d

/-! ## MTU probe scoring (src/server/wireguard.js, calculateMTUScore) -/

/-- Outcome of performMTUTest for one candidate MTU: overall success,
average latency in milliseconds, packet loss percentage. -/
structure MTUTestResult where
  success : Bool
  latency : ℚ
  packetLoss : ℚ
deriving DecidableEq, Repr

/-- Translation of calculateMTUScore (src/server/wireguard.js lines
665-679): 0 for an unsuccessful probe, otherwise a base score of 50,
plus a latency bonus, minus the packet loss, clamped to the range 0-100
by Math.max and Math.min. -/
def calculateMTUScore (t : MTUTestResult) : ℚ :=
  if !t.success then 0 else
    let score : ℚ := 50
    let score :=
      if t.latency < 50 then score + 30
      else if t.latency < 100 then score + 20
      else if t.latency < 200 then score + 10
      else score
    let score := score - t.packetLoss
    max 0 (min 100 score)

/-- The latency bonus exactly as the specification words it: 30 under
50 ms, 20 under 100 ms, 10 under 200 ms, otherwise 0. -/
def specLatencyBonus (lat : ℚ) : ℚ :=
  if lat < 50 then 30 else if lat < 100 then 20 else if lat < 200 then 10 else 0

/-- clamp(lo, hi, x) as the specification words it. -/
def specClamp (lo hi x : ℚ) : ℚ :=
  max lo (min hi x)

/-- The per-candidate score exactly as the specification words it:
clamp(0, 100, 50 + latencyBonus - packetLossPercent) on success, 0
otherwise. -/
def specMTUScore (t : MTUTestResult) : ℚ :=
  if t.success then specClamp 0 100 (50 + specLatencyBonus t.latency - t.packetLoss) else 0

/-! ## Peer address allocation (src/unnamed/part_001 _getNextAvailableIP,
src/server/wireguard.js generateNextIP; the two are identical) -/

/-- The candidate template literal of the allocation loop: the first
three address parts joined with the host identifier. -/
def candIP (a b c i : Nat) : String :=
  toString a ++ "." ++ toString b ++ "." ++ toString c ++ "." ++ toString i

/-- The scan loop: for i from the given start for the given number of
iterations, build the candidate address from the first three address
parts and i, and return the first candidate that is not used.  Called
with 253 iterations starting at 2, this is the source loop
for (let i = 2; i <= 254; i++). -/
def scanIP (a b c : Nat) (used : List String) : Nat → Nat → Except String String
  | 0, _ => .error "No available IP addresses in the subnet"
  | n + 1, i =>
    let candidateIP := candIP a b c i
    if used.contains candidateIP then scanIP a b c used n (i + 1)
    else .ok candidateIP

/-- Translation of generateNextIP / _getNextAvailableIP: split the
server address on the slash, split the host part on dots, and scan host
identifiers 2 through 254 for the first address not present among the
used (assigned) addresses. -/
def generateNextIP (address : String) (used : List String) : Except String String :=
  let serverIP := (jsSplitChar '/' address).headD ""
  let serverParts := (jsSplitChar '.' serverIP).map (fun s => (jsParseInt s).getD 0)
  scanIP (serverParts.getD 0 0) (serverParts.getD 1 0) (serverParts.getD 2 0) used 253 2

/-- Candidate address in the subnet of the scenario interface. -/
def scenarioIP (i : Nat) : String :=
  "10.5.0." ++ toString i

/-! ## Data model: peers and servers

Peer fields follow PeerSchema (src/unnamed/part_001 lines 5-226) and
Server fields follow ServerSchema (src/server/models/Server.js lines
4-173), restricted to the fields the verified operations read or write.
Timestamps are rationals (milliseconds); uptimes are rationals
(seconds, the source divides millisecond differences by 1000).
-/

inductive PeerStatus where
  | connected
  | disconnected
  | pending
  | error
  | disabled
deriving DecidableEq, Repr

inductive ServerStatus where
  | active
  | inactive
  | error
  | maintenance
deriving DecidableEq, Repr

structure Peer where
  id : Nat
  name : String
  server : Nat
  publicKey : String
  privateKey : String
  presharedKey : Option String
  allowedIPs : List String
  persistentKeepalive : Nat
  assignedIP : String
  status : PeerStatus
  enabled : Bool
  lastHandshake : Option ℚ
  lastSeen : Option ℚ
  firstSeen : Option ℚ
  connectionCount : Nat
  totalUptime : ℚ
  updatedAt : ℚ
deriving DecidableEq, Repr

structure Server where
  id : Nat
  name : String
  interfaceName : String
  address : String
  listenPort : Nat
  privateKey : Option String
  publicKey : String
  mtu : Nat
  dns : List String
  persistentKeepalive : Nat
  status : ServerStatus
  lastStartTime : Option ℚ
  lastStopTime : Option ℚ
  totalUptime : ℚ
  peerCount : Int
  activePeers : Int
  enableIPv6 : Bool
  ispProfile : String
deriving DecidableEq, Repr

/-- Translation of the PeerSchema pre-save middleware
(src/unnamed/part_001 lines 273-315), restricted to the parts that act
on the modelled fields: set updatedAt; on a save where the status path
is modified and the status is connected, set firstSeen when absent and
set lastSeen and increment connectionCount; on a save where the status
path is modified to disconnected with a last handshake recorded,
accumulate totalUptime.  The serverId mirror, the MTU default fetch and
the key-rotation-date default act on fields outside the model and are
elided.  statusModified models this.isModified with the status path. -/
def peerPreSave (now : ℚ) (statusModified : Bool) (p : Peer) : Peer :=
  let p₁ := { p with updatedAt := now }
  let p₂ :=
    if statusModified ∧ p₁.status = .connected ∧ p₁.firstSeen = none then
      { p₁ with firstSeen := some now }
    else p₁
  let p₃ :=
    if statusModified ∧ p₂.status = .connected then
      { p₂ with lastSeen := some now, connectionCount := p₂.connectionCount + 1 }
    else p₂
  if statusModified ∧ p₃.status = .disconnected then
    match p₃.lastHandshake with
    | some h => { p₃ with totalUptime := p₃.totalUptime + (now - h) / 1000 }
    | none => p₃
  else p₃

/-- Count of peer documents of a server with enabled true: the first
countDocuments query of the PeerSchema post-save middleware. -/
def countEnabled (peers : List Peer) (sid : Nat) : Int :=
  ((peers.filter (fun p => p.server = sid ∧ p.enabled)).length : Int)

/-- Count of peer documents of a server with status connected and
enabled true: the second countDocuments query of the PeerSchema
post-save middleware, and also the activePeers recount at the end of
updatePeersStatus. -/
def countConnectedEnabled (peers : List Peer) (sid : Nat) : Int :=
  ((peers.filter (fun p => p.server = sid ∧ p.status = .connected ∧ p.enabled)).length : Int)

/-- Translation of the PeerSchema post-save middleware
(src/unnamed/part_001 lines 317-336): recompute the owning server
record peerCount and activePeers from the peer collection. -/
def peerPostSave (servers : List Server) (peers : List Peer) (doc : Peer) : List Server :=
  servers.map (fun s =>
    if s.id = doc.server then
      { s with peerCount := countEnabled peers doc.server,
               activePeers := countConnectedEnabled peers doc.server }
    else s)

/-- Saving an existing peer document: run the pre-save middleware,
write the document back to the collection by id, run the post-save
middleware against the server collection. -/
def savePeerDoc (now : ℚ) (statusModified : Bool) (servers : List Server)
    (peers : List Peer) (p : Peer) : List Server × List Peer × Peer :=
  let p₂ := peerPreSave now statusModified p
  let peers₂ := peers.map (fun q => if q.id = p₂.id then p₂ else q)
  (peerPostSave servers peers₂ p₂, peers₂, p₂)

/-- Saving a new peer document (insert): run the pre-save middleware
(on a new document every set path, including status, counts as
modified), append to the collection, run the post-save middleware. -/
def insertPeerDoc (now : ℚ) (servers : List Server) (peers : List Peer)
    (p : Peer) : List Server × List Peer × Peer :=
  let p₂ := peerPreSave now true p
  let peers₂ := peers ++ [p₂]
  (peerPostSave servers peers₂ p₂, peers₂, p₂)

/-! ## Peer status reconciliation (src/server/wireguard.js,
updatePeersStatus lines 334-409) -/

/-- The body of the update loop of updatePeersStatus (lines 381-399)
for one peer: when the peer public key is in the live handshake set and
the stored status is not connected, set status/lastHandshake/lastSeen,
set firstSeen when absent and increment connectionCount; when the key
is absent and the stored status is connected, set status disconnected;
in every case save the peer, which runs the pre-save middleware. -/
def updatePeerFromLive (now : ℚ) (connectedPeers : List String) (p : Peer) : Peer :=
  let isConnected := connectedPeers.contains p.publicKey
  if isConnected ∧ p.status ≠ .connected then
    let p₁ := { p with status := .connected, lastHandshake := some now, lastSeen := some now }
    let p₂ := if p₁.firstSeen = none then { p₁ with firstSeen := some now } else p₁
    let p₃ := { p₂ with connectionCount := p₂.connectionCount + 1 }
    peerPreSave now true p₃
  else if ¬ isConnected ∧ p.status = .connected then
    peerPreSave now true { p with status := .disconnected }
  else
    peerPreSave now false p

/-- Translation of updatePeersStatus for a running interface: update
every peer of the server from the live handshake set (saving each one,
so the post-save recount also runs), then recount the server
activePeers from the collection and save the server. -/
def updatePeersStatus (now : ℚ) (connectedPeers : List String) (server : Server)
    (peers : List Peer) : Server × List Peer :=
  let peers₂ := peers.map (fun p =>
    if p.server = server.id then updatePeerFromLive now connectedPeers p else p)
  let server₂ :=
    if peers₂.any (fun p => p.server = server.id) then
      { server with peerCount := countEnabled peers₂ server.id,
                    activePeers := countConnectedEnabled peers₂ server.id }
    else server
  ({ server₂ with activePeers := countConnectedEnabled peers₂ server.id }, peers₂)

/-! ## Interface lifecycle (src/server/models/Server.js updateStatus,
src/server/wireguard.js stopInterface) -/

/-- Translation of ServerSchema.methods.updateStatus
(src/server/models/Server.js lines 265-280). -/
def updateStatus (now : ℚ) (s : Server) (newStatus : ServerStatus) : Server :=
  let s₁ :=
    if s.status = .active ∧ newStatus = .inactive then
      let s₂ :=
        match s.lastStartTime with
        | some t => { s with totalUptime := s.totalUptime + (now - t) / 1000 }
        | none => s
      { s₂ with lastStopTime := some now }
    else if s.status = .inactive ∧ newStatus = .active then
      { s with lastStartTime := some now }
    else s
  { s₁ with status := newStatus }

/-- Translation of the success path of stopInterface
(src/server/wireguard.js lines 163-193): bring the interface down,
update the server status to inactive, and mark every connected peer of
this server disconnected with lastSeen set.  The peer update is a
Peer.updateMany, which in Mongoose bypasses the document pre/post save
middleware, so no peer hook and no counter recount runs. -/
def stopInterface (now : ℚ) (server : Server) (peers : List Peer) : Server × List Peer :=
  let server₂ := updateStatus now server .inactive
  let peers₂ := peers.map (fun p =>
    if p.server = server.id ∧ p.status = .connected then
      { p with status := .disconnected, lastSeen := some now }
    else p)
  (server₂, peers₂)

/-! ## Peer provisioning (src/server/wireguard.js addPeer lines 208-242,
removePeer lines 244-278) -/

/-- Translation of the success path of addPeer: generateNewPeer builds
and saves the new peer document (insert, middleware included), then
generateConfig saves the peer a second time (the config-file fields it
sets are outside the model; the save and its middleware are what
matter here), then the server peerCount is incremented with a
findByIdAndUpdate $inc, which bypasses document middleware. -/
def addPeer (now : ℚ) (servers : List Server) (peers : List Peer)
    (newPeer : Peer) : List Server × List Peer :=
  let r₁ := insertPeerDoc now servers peers newPeer
  let r₂ := savePeerDoc now false r₁.1 r₁.2.1 r₁.2.2
  let servers₃ := r₂.1.map (fun s =>
    if s.id = r₂.2.2.server then { s with peerCount := s.peerCount + 1 } else s)
  (servers₃, r₂.2.1)

/-- Translation of the success path of removePeer: look the peer up by
id, set status disabled and enabled false, save it (middleware
included), then decrement the server peerCount with a
findByIdAndUpdate $inc, which bypasses document middleware and its
validators. -/
def removePeer (now : ℚ) (servers : List Server) (peers : List Peer)
    (peerId : Nat) : Except String (List Server × List Peer) :=
  match peers.find? (fun p => p.id == peerId) with
  | none => .error "Peer not found"
  | some peer =>
    let upd := { peer with status := .disabled, enabled := false }
    let r := savePeerDoc now true servers peers upd
    let servers₂ := r.1.map (fun s =>
      if s.id = peer.server then { s with peerCount := s.peerCount - 1 } else s)
    .ok (servers₂, r.2.1)

/-! ## Backup (src/server/wireguard.js backupConfig lines 913-949,
src/server/models/Server.js toPublicJSON lines 255-263) -/

/-- The shape of a server record as it appears in API output and in a
backup: toObject() with privateKey, the internal id and the version key
deleted.  The optional privateKey field records whether a private key
is present in the serialized record. -/
structure ServerJSON where
  interfaceName : String
  address : String
  publicKey : String
  privateKey : Option String
  listenPort : Nat
  mtu : Nat
  status : ServerStatus
deriving DecidableEq, Repr

/-- Translation of ServerSchema.methods.toPublicJSON: convert to a
plain object and delete the privateKey field (the loaded document does
not carry it anyway, since the schema marks it select false and
backupConfig loads the server with a plain findOne). -/
def toPublicJSON (s : Server) : ServerJSON :=
  { interfaceName := s.interfaceName
    address := s.address
    publicKey := s.publicKey
    privateKey := none
    listenPort := s.listenPort
    mtu := s.mtu
    status := s.status }

/-- The shape of a peer record in a backup: the result of
Peer.find(...).select("-privateKey -presharedKey"), so both secret
fields are absent. -/
structure PeerJSON where
  name : String
  publicKey : String
  privateKey : Option String
  presharedKey : Option String
  assignedIP : String
  allowedIPs : List String
deriving DecidableEq, Repr

/-- The select("-privateKey -presharedKey") projection on a peer. -/
def peerSelectNoSecrets (p : Peer) : PeerJSON :=
  { name := p.name
    publicKey := p.publicKey
    privateKey := none
    presharedKey := none
    assignedIP := p.assignedIP
    allowedIPs := p.allowedIPs }

/-- A snapshot bundle as built by backupConfig. -/
structure Backup where
  server : ServerJSON
  config : String
  peers : List PeerJSON
  version : String
deriving DecidableEq, Repr

/-- Translation of backupConfig (src/server/wireguard.js lines
913-949): the snapshot holds toPublicJSON of the server record, the raw
configuration text read from disk, the peer records of the server with
the two secret fields excluded, and the format version. -/
def backupConfig (server : Server) (configContent : String)
    (allPeers : List Peer) : Backup :=
  { server := toPublicJSON server
    config := configContent
    peers := (allPeers.filter (fun p => p.server = server.id)).map peerSelectNoSecrets
    version := "1.0" }

/-- Translation of the server-creation step of restoreConfig
(src/server/wireguard.js lines 970-975) together with the schema
validation that new Server(...).save() runs: ServerSchema marks
privateKey required, so saving a record without one fails with the
required-path validation error. -/
def restoreCreateServer (b : Backup) : Except String ServerJSON :=
  if b.server.privateKey = none then .error "Private key is required"
  else .ok { b.server with status := .inactive }

/-! ## MTU probe sweep (src/server/wireguard.js testMTU lines 534-598) -/

/-- Environment outcome for the probe of one candidate, indexed by loop
position: the temporary MTU set command may throw (leaving the path MTU
unchanged), the probe itself may throw after the MTU was set, or the
probe returns a measurement. -/
inductive ProbeOutcome where
  | setFail
  | probeThrow
  | tested (r : MTUTestResult)

/-- One entry of the results array of testMTU. -/
structure MTUSample where
  mtu : Nat
  success : Bool
  score : ℚ
deriving DecidableEq, Repr

/-- The candidate loop of testMTU (lines 548-577): for each candidate,
set the temporary MTU and run the probe; a throw from either step is
caught inside the loop and recorded as a failed sample with score 0,
and the loop continues with the next candidate.  The second component
tracks the MTU currently set on the path. -/
def testMTULoop (env : Nat → ProbeOutcome) : List Nat → Nat → Nat → List MTUSample × Nat
  | [], _, pathMtu => ([], pathMtu)
  | c :: cs, k, pathMtu =>
    match env k with
    | .setFail =>
      let r := testMTULoop env cs (k + 1) pathMtu
      ({ mtu := c, success := false, score := 0 } :: r.1, r.2)
    | .probeThrow =>
      let r := testMTULoop env cs (k + 1) c
      ({ mtu := c, success := false, score := 0 } :: r.1, r.2)
    | .tested t =>
      let r := testMTULoop env cs (k + 1) c
      ({ mtu := c, success := t.success, score := calculateMTUScore t } :: r.1, r.2)

/-- Translation of testMTU restricted to the results array and the path
MTU: record the original MTU from the server record, run the candidate
loop, then, if the original MTU is truthy, restore it with a final set
command.  Returns the results and the MTU left on the path. -/
def testMTU (server : Server) (mtuValues : List Nat) (env : Nat → ProbeOutcome)
    (pathMtu : Nat) : List MTUSample × Nat :=
  let originalMTU := server.mtu
  let r := testMTULoop env mtuValues 0 pathMtu
  (r.1, if originalMTU ≠ 0 then originalMTU else r.2)

/-! ## MTU profiles (src/server/models/MTUProfile.js) -/

structure MTUProfile where
  id : Nat
  name : String
  isp : String
  mtu : Nat
  isDefault : Bool
  updatedAt : ℚ
deriving DecidableEq, Repr

/-- Translation of the MTUProfileSchema pre-save middleware
(src/server/models/MTUProfile.js lines 152-172): set updatedAt, and
when the document is default and the isDefault path was modified, clear
isDefault on every other profile of the same provider with an
updateMany.  Returns the updated collection and document. -/
def profilePreSave (now : ℚ) (db : List MTUProfile) (p : MTUProfile)
    (defaultModified : Bool) : List MTUProfile × MTUProfile :=
  let p₂ := { p with updatedAt := now }
  let db₂ :=
    if p₂.isDefault ∧ defaultModified then
      db.map (fun q =>
        if q.isp = p₂.isp ∧ q.id ≠ p₂.id then { q with isDefault := false } else q)
    else db
  (db₂, p₂)

/-- Saving an MTU profile document: pre-save middleware, then write the
document back to the collection by id. -/
def saveProfile (now : ℚ) (db : List MTUProfile) (p : MTUProfile)
    (defaultModified : Bool) : List MTUProfile :=
  let r := profilePreSave now db p defaultModified
  r.1.map (fun q => if q.id = r.2.id then r.2 else q)

/-- Marking a stored profile as default and saving it (the operation
behind the invariant: set isDefault and save, so the isDefault path is
modified). -/
def setDefaultAndSave (now : ℚ) (db : List MTUProfile) (pid : Nat) : List MTUProfile :=
  match db.find? (fun q => q.id == pid) with
  | none => db
  | some p => saveProfile now db { p with isDefault := true } true

/-- Translation of MTUProfileSchema.statics.getDefaultForISP
(src/server/models/MTUProfile.js lines 360-362): findOne on provider
tag and isDefault true. -/
def getDefaultForISP (db : List MTUProfile) (isp : String) : Option MTUProfile :=
  db.find? (fun q => q.isp == isp && q.isDefault)

/-! ## Peer reconciliation from parsed config
(src/server/wireguard.js syncPeersToDatabase lines 490-530) -/

/-- A parsed [Peer] section entry as syncPeersToDatabase consumes it. -/
structure PeerConfigEntry where
  PublicKey : Option String := none
  AllowedIPs : Option String := none
  PersistentKeepalive : Option String := none
deriving DecidableEq, Repr

/-- Generators for the collaborator-produced parts of a freshly created
peer, indexed by how many peers the sync has created so far: the new
document id, the wg genkey private key, the assigned address (the
source takes extractIPFromAllowedIPs falling back to generateNextIP)
and the Date.now()-stamped name. -/
structure FreshOracle where
  ids : Nat → Nat
  keys : Nat → String
  ips : Nat → String
  names : Nat → String

/-- The update branch of syncPeersToDatabase for an existing peer:
refresh allowedIPs from the entry when the entry value is truthy
(split on comma-space, empty items filtered), and refresh
persistentKeepalive with parseInt(entry) || current. -/
def refreshPeerFromEntry (e : PeerConfigEntry) (p : Peer) : Peer :=
  let p₁ :=
    { p with allowedIPs :=
        match e.AllowedIPs with
        | some v => if v ≠ "" then (jsSplitCommaSpace v).filter (fun ip => ip ≠ "") else p.allowedIPs
        | none => p.allowedIPs }
  { p₁ with persistentKeepalive := jsParseIntOr p.persistentKeepalive e.PersistentKeepalive }

/-- The body of the syncPeersToDatabase loop for one entry, threading
the peer collection and the count of peers created so far.  An entry
with a falsy PublicKey is skipped; otherwise the peer is looked up by
public key and server, and either refreshed or created with defaults
(status pending, enabled true, counters zero) and saved. -/
def syncOnePeer (now : ℚ) (sid : Nat) (oracle : FreshOracle)
    (st : List Peer × Nat) (e : PeerConfigEntry) : List Peer × Nat :=
  let peers := st.1
  let created := st.2
  let k := e.PublicKey.getD ""
  if k = "" then (peers, created)
  else
    match peers.find? (fun p => p.publicKey == k && p.server == sid) with
    | some p =>
      let p₂ := peerPreSave now false (refreshPeerFromEntry e p)
      (peers.map (fun q => if q.id = p₂.id then p₂ else q), created)
    | none =>
      let newPeer : Peer :=
        { id := oracle.ids created
          name := oracle.names created
          server := sid
          publicKey := k
          privateKey := oracle.keys created
          presharedKey := none
          allowedIPs :=
            match e.AllowedIPs with
            | some v => if v ≠ "" then (jsSplitCommaSpace v).filter (fun ip => ip ≠ "") else ["0.0.0.0/0"]
            | none => ["0.0.0.0/0"]
          persistentKeepalive := jsParseIntOr 25 e.PersistentKeepalive
          assignedIP := oracle.ips created
          status := .pending
          enabled := true
          lastHandshake := none
          lastSeen := none
          firstSeen := none
          connectionCount := 0
          totalUptime := 0
          updatedAt := 0 }
      (peers ++ [peerPreSave now true newPeer], created + 1)

/-- Translation of syncPeersToDatabase: fold the loop body over the
parsed peer entries.  The post-save counter recount on the server
record (peerPostSave) is orthogonal to the peer collection and is
omitted from the returned state. -/
def syncPeersToDatabase (now : ℚ) (sid : Nat) (oracle : FreshOracle)
    (peers : List Peer) (entries : List PeerConfigEntry) : List Peer :=
  (entries.foldl (syncOnePeer now sid oracle) (peers, 0)).1

/-- The public keys that drive non-skipped entries of a sync: the truthy
PublicKey values. -/
def entryKeys (entries : List PeerConfigEntry) : List String :=
  entries.filterMap (fun e =>
    match e.PublicKey with
    | some k => if k = "" then none else some k
    | none => none)

/-! ## Configuration text codec
(src/server/wireguard.js parseConfig lines 807-844,
src/server/models/Server.js getConfigContent lines 230-253,
syncInterfaceToDatabase lines 427-488) -/

inductive CfgSection where
  | interfaceSection
  | peerSection
deriving DecidableEq, Repr

/-- Parser state: the interface field object, the peer field objects in
order, and the current section.  The JavaScript currentPeer alias into
the peers array is modelled by updating the last element. -/
structure ParseState where
  iface : List (String × String)
  peers : List (List (String × String))
  currentSection : Option CfgSection
deriving DecidableEq, Repr

/-- JavaScript object assignment obj[k] = v on a field object modelled
as an association list: overwrite an existing key, else append. -/
def objSet (m : List (String × String)) (k v : String) : List (String × String) :=
  if m.any (fun kv => kv.1 == k) then
    m.map (fun kv => if kv.1 == k then (k, v) else kv)
  else m ++ [(k, v)]

/-- JavaScript object field read obj[k]. -/
def objGet (m : List (String × String)) (k : String) : Option String :=
  (m.find? (fun kv => kv.1 == k)).map (fun kv => kv.2)

/-- Apply a function to the last element of a list (the currentPeer
alias). -/
def updateLastPeer : List (List (String × String)) →
    (List (String × String) → List (String × String)) → List (List (String × String))
  | [], _ => []
  | [m], f => [f m]
  | m :: m₂ :: rest, f => m :: updateLastPeer (m₂ :: rest) f

/-- Translation of the body of the parseConfig line loop
(src/server/wireguard.js lines 817-841): trim the line; a bracketed
line selects the section (pushing a fresh peer object on [Peer]); a
non-empty non-comment line is split on the equals sign, the first part
becomes the key and the rest, re-joined on the equals sign and trimmed,
becomes the value, assigned into the object of the current section. -/
def parseConfigLine (st : ParseState) (line : String) : ParseState :=
  let trimmed := jsTrim line
  if startsWithStr "[" trimmed ∧ endsWithStr "]" trimmed then
    if trimmed == "[Interface]" then { st with currentSection := some .interfaceSection }
    else if trimmed == "[Peer]" then
      { st with peers := st.peers ++ [[]], currentSection := some .peerSection }
    else st
  else if trimmed ≠ "" ∧ ¬ startsWithStr "#" trimmed then
    match jsSplitChar '=' trimmed with
    | [] => st
    | key :: valueParts =>
      let value := jsTrim (jsJoinChar '=' valueParts)
      match st.currentSection with
      | some .interfaceSection => { st with iface := objSet st.iface (jsTrim key) value }
      | some .peerSection =>
        if st.peers ≠ [] then
          { st with peers := updateLastPeer st.peers (fun m => objSet m (jsTrim key) value) }
        else st
      | none => st
  else st

/-- The parsed configuration: interface fields and peer entries. -/
structure WGConfig where
  iface : List (String × String)
  peers : List (List (String × String))
deriving DecidableEq, Repr

/-- Translation of parseConfig: split the text on newlines and fold the
line parser over the lines. -/
def parseConfig (configContent : String) : WGConfig :=
  let lines := jsSplitChar '\n' configContent
  let st := lines.foldl parseConfigLine { iface := [], peers := [], currentSection := none }
  { iface := st.iface, peers := st.peers }

/-- Translation of ServerSchema.methods.getConfigContent
(src/server/models/Server.js lines 230-253): emit the [Interface]
header, Address, ListenPort and PrivateKey lines, an MTU line when mtu
is truthy, a DNS line joining the list on comma-space when the list is
non-empty, a DisableIPv6 line when IPv6 is not enabled, a trailing
empty line, and join everything on newlines. -/
def getConfigContent (s : Server) : String :=
  let config := ["[Interface]",
    "Address = " ++ s.address,
    "ListenPort = " ++ toString s.listenPort,
    "PrivateKey = " ++ (match s.privateKey with | some k => k | none => "undefined")]
  let config := if s.mtu ≠ 0 then config ++ ["MTU = " ++ toString s.mtu] else config
  let config := if s.dns ≠ [] then config ++ ["DNS = " ++ jsJoinCommaSpace s.dns] else config
  let config := if !s.enableIPv6 then config ++ ["DisableIPv6 = true"] else config
  let config := config ++ [""]
  jsJoinChar '\n' config

/-- Translation of the model construction of syncInterfaceToDatabase
for a new server record (src/server/wireguard.js lines 456-469): each
canonical field is taken from the parsed interface object with the
source defaults; the public key comes from the wg pubkey collaborator;
all other fields take their schema defaults. -/
def buildServerFromConfig (interfaceName : String) (publicKey : String)
    (isRunning : Bool) (cfg : WGConfig) : Server :=
  { id := 0
    name := interfaceName
    interfaceName := interfaceName
    address := jsOrS (objGet cfg.iface "Address") "10.0.0.1/24"
    listenPort := jsParseIntOr 51820 (objGet cfg.iface "ListenPort")
    privateKey := objGet cfg.iface "PrivateKey"
    publicKey := publicKey
    mtu := jsParseIntOr 1420 (objGet cfg.iface "MTU")
    dns :=
      match objGet cfg.iface "DNS" with
      | some d => if d ≠ "" then (jsSplitCommaSpace d).filter (fun x => x ≠ "") else ["8.8.8.8", "8.8.4.4"]
      | none => ["8.8.8.8", "8.8.4.4"]
    persistentKeepalive := 25
    status := if isRunning then .active else .inactive
    lastStartTime := none
    lastStopTime := none
    totalUptime := 0
    peerCount := 0
    activePeers := 0
    enableIPv6 := false
    ispProfile := "UNKNOWN" }

/-- A canonical field value: non-empty, already trimmed (no leading or
trailing whitespace, stated through dropWhile on the data and on the
reversed data) and free of newlines. -/
abbrev canonicalValue (v : String) : Prop :=
  v ≠ "" ∧
  v.data.dropWhile Char.isWhitespace = v.data ∧
  v.data.reverse.dropWhile Char.isWhitespace = v.data.reverse ∧
  '\n' ∉ v.data

/-! ## Concrete records used by the evaluation theorems -/

/-- A pending peer whose public key appears in the live handshake set. -/
def peerC1 : Peer :=
  { id := 1, name := "alice", server := 0, publicKey := "PK1", privateKey := "SK1",
    presharedKey := none, allowedIPs := ["0.0.0.0/0"], persistentKeepalive := 25,
    assignedIP := "10.0.0.2", status := .pending, enabled := true,
    lastHandshake := none, lastSeen := none, firstSeen := none,
    connectionCount := 0, totalUptime := 0, updatedAt := 0 }

/-- An active server with two connected peers and activePeers = 2. -/
def serverC2 : Server :=
  { id := 0, name := "wg0", interfaceName := "wg0", address := "10.0.0.1/24",
    listenPort := 51820, privateKey := some "SK0", publicKey := "PUB0",
    mtu := 1420, dns := ["8.8.8.8", "8.8.4.4"], persistentKeepalive := 25,
    status := .active, lastStartTime := some 0, lastStopTime := none,
    totalUptime := 0, peerCount := 2, activePeers := 2, enableIPv6 := false,
    ispProfile := "UNKNOWN" }

/-- First connected peer of serverC2. -/
def peerC2a : Peer :=
  { peerC1 with id := 1, publicKey := "PK1", status := .connected,
                lastHandshake := some 1000, lastSeen := some 1000,
                firstSeen := some 1000, connectionCount := 1 }

/-- Second connected peer of serverC2. -/
def peerC2b : Peer :=
  { peerC2a with id := 2, publicKey := "PK2", assignedIP := "10.0.0.3" }

/-- A fresh server with no peers and both counters at zero. -/
def serverC3 : Server :=
  { serverC2 with status := .inactive, lastStartTime := none,
                  peerCount := 0, activePeers := 0 }

/-- The peer document handed to addPeer for serverC3. -/
def peerC3 : Peer :=
  { peerC1 with id := 7, publicKey := "PK7", assignedIP := "10.0.0.2" }

/-- A server as loaded by backupConfig (privateKey, a select-false
path, is absent from the loaded document; the stored value plays no
further role). -/
def serverC4 : Server :=
  { serverC2 with privateKey := none }

/-- A peer of serverC4 carrying both secrets in the store. -/
def peerC4 : Peer :=
  { peerC1 with privateKey := "PEERSECRET=", presharedKey := some "PSK=" }

/-- A configuration text that uses only the canonical fields, with one
field per line in the canonical key-value layout. -/
def canonicalConfigText (addr portS keyV mtuS dnsS : String) : String :=
  jsJoinChar '\n'
    ["[Interface]",
     "Address" ++ " = " ++ addr,
     "ListenPort" ++ " = " ++ portS,
     "PrivateKey" ++ " = " ++ keyV,
     "MTU" ++ " = " ++ mtuS,
     "DNS" ++ " = " ++ dnsS]

/-- Decidable equality for results of fallible operations. -/
instance exceptDecEq {ε α : Type} [DecidableEq ε] [DecidableEq α] :
    DecidableEq (Except ε α) := fun a b =>
  match a, b with
  | .error e₁, .error e₂ =>
    match decEq e₁ e₂ with
    | isTrue h => isTrue (by rw [h])
    | isFalse h => isFalse (by intro hc; injection hc with h₂; exact h h₂)
  | .error _, .ok _ => isFalse (fun hc => Except.noConfusion hc)
  | .ok _, .error _ => isFalse (fun hc => Except.noConfusion hc)
  | .ok a₁, .ok a₂ =>
    match decEq a₁ a₂ with
    | isTrue h => isTrue (by rw [h])
    | isFalse h => isFalse (by intro hc; injection hc with h₂; exact h h₂)

/-! ## Theorems -/

/-- C6: for every probe test result, the per-candidate MTU score equals
clamp(0, 100, 50 + latencyBonus - packetLossPercent), where
latencyBonus is 30 when average latency is under 50 ms, 20 under
100 ms, 10 under 200 ms and 0 otherwise; a candidate whose probe did
not succeed scores 0. -/
theorem calculateMTUScore_c6_spec (t : MTUTestResult) :
    calculateMTUScore t = specMTUScore t := by
  rcases t with ⟨s, lat, pl⟩
  cases s
  · rfl
  · simp only [calculateMTUScore, specMTUScore, specClamp, specLatencyBonus]
    split_ifs <;> simp_all

/-- C1: evaluation of the updatePeersStatus loop body at a pending peer
whose key is in the live handshake set.  The transition does set
last-handshake, last-seen and first-seen, but the connection counter is
incremented twice for this single pending-to-connected edge: once by
the loop body itself and once more by the pre-save middleware, which
sees the modified status.  The claim says exactly once. -/
theorem updatePeersStatus_c1_double_increment :
    updatePeerFromLive 1000 ["PK1"] peerC1 =
      { peerC1 with status := .connected, lastHandshake := some 1000,
                    lastSeen := some 1000, firstSeen := some 1000,
                    connectionCount := 2, updatedAt := 1000 }
    ∧ (updatePeerFromLive 1000 ["PK1"] peerC1).connectionCount = 2 := by
  constructor <;> rfl

/-- C2: evaluation of stopInterface on an active server with two
connected enabled peers and activePeers = 2.  Both peers become
disconnected and the uptime is accumulated, but the activePeers counter
keeps its stale value 2 (the bulk peer update bypasses the document
middleware and stopInterface never recounts), while the true count of
connected enabled peers is 0.  The claim says the counter ends at 0. -/
theorem stopInterface_c2_stale_activePeers :
    (stopInterface 5000 serverC2 [peerC2a, peerC2b]).2.map Peer.status
        = [.disconnected, .disconnected]
    ∧ (stopInterface 5000 serverC2 [peerC2a, peerC2b]).1.status = .inactive
    ∧ (stopInterface 5000 serverC2 [peerC2a, peerC2b]).1.totalUptime = 5
    ∧ (stopInterface 5000 serverC2 [peerC2a, peerC2b]).1.activePeers = 2
    ∧ countConnectedEnabled (stopInterface 5000 serverC2 [peerC2a, peerC2b]).2 0 = 0 := by
  refine ⟨by decide, by decide, ?_, by decide, by decide⟩
  show (updateStatus 5000 serverC2 .inactive).totalUptime = 5
  norm_num [updateStatus, serverC2]

/-- C3: evaluation of addPeer on a fresh server with no peers, followed
by removePeer of the same peer.  After addPeer the post-save recount
sets peerCount to the true value 1 but the extra findByIdAndUpdate
increment pushes it to 2; after removePeer the recount sets it to the
true value 0 but the extra decrement pushes it to -1.  The claim says
the counters equal the true counts after each operation. -/
theorem addRemovePeer_c3_counter_drift :
    ((addPeer 2000 [serverC3] [] peerC3).1.map Server.peerCount = [2]
      ∧ countEnabled (addPeer 2000 [serverC3] [] peerC3).2 0 = 1)
    ∧ (removePeer 3000 (addPeer 2000 [serverC3] [] peerC3).1
          (addPeer 2000 [serverC3] [] peerC3).2 7).map
        (fun r => (r.1.map Server.peerCount, countEnabled r.2 0))
        = .ok ([-1], 0) := by
  constructor
  · constructor <;> decide
  · decide

/-- C4: evaluation of backupConfig.  The peer records in the snapshot
have both secrets excluded, as the claim says, but the interface record
in the snapshot has no private key either: toPublicJSON deletes it (and
the document was loaded without it, the path being select false), so
the restore step of such a snapshot fails the required-private-key
validation.  The claim says the private key is included because restore
needs it. -/
theorem backupConfig_c4_privateKey_stripped :
    (backupConfig serverC4 "[Interface]" [peerC4]).server.privateKey = none
    ∧ (∀ pj ∈ (backupConfig serverC4 "[Interface]" [peerC4]).peers,
        pj.privateKey = none ∧ pj.presharedKey = none)
    ∧ (toPublicJSON serverC2).privateKey = none
    ∧ restoreCreateServer (backupConfig serverC4 "[Interface]" [peerC4])
        = .error "Private key is required" := by
  refine ⟨by decide, by decide, by decide, by decide⟩

/-- C5: after an MTU probe sweep over any candidate list and any
per-candidate environment (each candidate probe may fail or throw in
any way), the MTU left on the path equals the value the path had before
the sweep began, provided the server record carries a truthy MTU (the
schema guarantees a value of at least 576) and the path started at that
recorded value. -/
theorem testMTU_c5_restores_original_mtu (server : Server) (mtuValues : List Nat)
    (env : Nat → ProbeOutcome) (pathMtu : Nat)
    (hmtu : server.mtu ≠ 0) (hstart : pathMtu = server.mtu) :
    (testMTU server mtuValues env pathMtu).2 = pathMtu := by
  simp [testMTU, hmtu, hstart]

/-- Witness for C5: a sweep in which every candidate probe fails still
leaves the path at the original MTU 1420. -/
theorem testMTU_c5_witness :
    (testMTU serverC2 [1280, 1400, 1500] (fun _ => .setFail) 1420).2 = 1420 :=
  testMTU_c5_restores_original_mtu serverC2 [1280, 1400, 1500] (fun _ => .setFail) 1420
    (by decide) (by decide)

/-- The scan returns the first free candidate: if the candidate at
offset k is free and every earlier candidate from the start is used,
the scan returns the candidate at offset k. -/
theorem scanIP_first (a b c : Nat) (used : List String) :
    ∀ n i k, k < n →
      used.contains (candIP a b c (i + k)) = false →
      (∀ j, i ≤ j → j < i + k → used.contains (candIP a b c j) = true) →
      scanIP a b c used n i = .ok (candIP a b c (i + k)) := by
  intro n
  induction n with
  | zero =>
    intro i k hk _ _
    exact absurd hk (Nat.not_lt_zero k)
  | succ n ih =>
    intro i k hk hfree hbusy
    rcases Nat.eq_zero_or_pos k with hk0 | hkpos
    · subst hk0
      have hfree₀ : used.contains (candIP a b c i) = false := by
        have h := hfree; rwa [Nat.add_zero] at h
      have hok : scanIP a b c used (n + 1) i = .ok (candIP a b c i) := by
        simp only [scanIP]
        rw [if_neg (by rw [hfree₀]; simp)]
      rw [hok, Nat.add_zero]
    · obtain ⟨k₂, rfl⟩ : ∃ k₂, k = k₂ + 1 := ⟨k - 1, by omega⟩
      have hbi : used.contains (candIP a b c i) = true := hbusy i (Nat.le_refl i) (by omega)
      have hstep : scanIP a b c used (n + 1) i = scanIP a b c used n (i + 1) := by
        simp only [scanIP]
        rw [if_pos hbi]
      have harith : i + 1 + k₂ = i + (k₂ + 1) := by omega
      have hfree₂ : used.contains (candIP a b c (i + 1 + k₂)) = false := by
        rw [harith]; exact hfree
      have hbusy₂ : ∀ j, i + 1 ≤ j → j < i + 1 + k₂ →
          used.contains (candIP a b c j) = true := by
        intro j hj1 hj2
        exact hbusy j (by omega) (by omega)
      rw [hstep, ih (i + 1) k₂ (by omega) hfree₂ hbusy₂, harith]

/-- The scan fails with the exhaustion error when every candidate in
its range is used. -/
theorem scanIP_exhaust (a b c : Nat) (used : List String) :
    ∀ n i, (∀ j, i ≤ j → j < i + n → used.contains (candIP a b c j) = true) →
      scanIP a b c used n i = .error "No available IP addresses in the subnet" := by
  intro n
  induction n with
  | zero => intro i _; rfl
  | succ n ih =>
    intro i hbusy
    have hbi : used.contains (candIP a b c i) = true := hbusy i (Nat.le_refl i) (by omega)
    have hstep : scanIP a b c used (n + 1) i = scanIP a b c used n (i + 1) := by
      simp only [scanIP]
      rw [if_pos hbi]
    rw [hstep]
    exact ih (i + 1) (fun j hj1 hj2 => hbusy j (by omega) (by omega))

/-- C7: address allocation for the scenario interface with subnet
10.5.0.0/24 deterministically scans host identifiers upward from the
second usable address, 10.5.0.2: for every set of used addresses it
returns the first host identifier between 2 and 254 whose address is
not used, and it fails with the address-space-exhausted error when all
of 10.5.0.2 through 10.5.0.254 are used. -/
theorem generateNextIP_c7_first_fit (used : List String) :
    (∀ i, 2 ≤ i → i ≤ 254 → used.contains (candIP 10 5 0 i) = false →
      (∀ j, 2 ≤ j → j < i → used.contains (candIP 10 5 0 j) = true) →
      generateNextIP "10.5.0.0/24" used = .ok (candIP 10 5 0 i))
    ∧ ((∀ j, 2 ≤ j → j ≤ 254 → used.contains (candIP 10 5 0 j) = true) →
      generateNextIP "10.5.0.0/24" used
        = .error "No available IP addresses in the subnet") := by
  have hunfold : generateNextIP "10.5.0.0/24" used = scanIP 10 5 0 used 253 2 := rfl
  constructor
  · intro i h2 h254 hfree hbusy
    rw [hunfold,
      scanIP_first 10 5 0 used 253 2 (i - 2) (by omega)
        (by rw [show 2 + (i - 2) = i from by omega]; exact hfree)
        (fun j hj1 hj2 => hbusy j hj1 (by omega)),
      show 2 + (i - 2) = i from by omega]
  · intro hbusy
    rw [hunfold]
    exact scanIP_exhaust 10 5 0 used 253 2 (fun j hj1 hj2 => hbusy j hj1 (by omega))

/-- Witness for C7: the scenario of the claim.  Peers occupy 10.5.0.2
through 10.5.0.6 and allocation returns 10.5.0.7. -/
theorem generateNextIP_c7_witness :
    generateNextIP "10.5.0.0/24"
        ["10.5.0.2", "10.5.0.3", "10.5.0.4", "10.5.0.5", "10.5.0.6"]
      = .ok "10.5.0.7" := by
  have h := (generateNextIP_c7_first_fit
      ["10.5.0.2", "10.5.0.3", "10.5.0.4", "10.5.0.5", "10.5.0.6"]).1 7
      (by omega) (by omega) (by decide)
      (fun j hj1 hj2 => by interval_cases j <;> decide)
  exact h

/-- Helper for C9: after the clear-and-replace pass, the first (and
only) profile matching the default query for the provider of p is the
updated p. -/
theorem c9FindAux (now : ℚ) (p : MTUProfile) :
    ∀ db : List MTUProfile,
      db.find? (fun q => q.id == p.id) = some p →
      (db.map (fun q =>
          if q.id = p.id then { p with isDefault := true, updatedAt := now }
          else if q.isp = p.isp ∧ q.id ≠ p.id then { q with isDefault := false }
          else q)).find? (fun q => q.isp == p.isp && q.isDefault)
        = some { p with isDefault := true, updatedAt := now } := by
  intro db
  induction db with
  | nil => intro h; simp at h
  | cons x xs ih =>
    intro h
    by_cases hx : x.id = p.id
    · have hxp : x = p := by
        rw [List.find?_cons_of_pos _ (by simpa using hx)] at h
        exact Option.some.inj h
      simp only [List.map_cons]
      rw [if_pos hx]
      exact List.find?_cons_of_pos _ (by simp)
    · have h₂ : xs.find? (fun q => q.id == p.id) = some p := by
        rw [List.find?_cons_of_neg _ (by simpa using hx)] at h
        exact h
      simp only [List.map_cons]
      rw [if_neg hx]
      by_cases hisp : x.isp = p.isp ∧ x.id ≠ p.id
      · rw [if_pos hisp]
        rw [List.find?_cons_of_neg _ (by simp)]
        exact ih h₂
      · rw [if_neg hisp]
        have hxisp : x.isp ≠ p.isp := fun hc => hisp ⟨hc, hx⟩
        rw [List.find?_cons_of_neg _ (by simp [hxisp])]
        exact ih h₂

/-- Helper for C9: after the clear-and-replace pass, any profile of the
provider of p that is still default is the updated p itself. -/
theorem c9MemAux (now : ℚ) (p : MTUProfile) (db : List MTUProfile) :
    ∀ q ∈ db.map (fun q =>
        if q.id = p.id then { p with isDefault := true, updatedAt := now }
        else if q.isp = p.isp ∧ q.id ≠ p.id then { q with isDefault := false }
        else q),
      q.isp = p.isp → q.isDefault = true → q.id = p.id := by
  intro q hq hisp hdef
  obtain ⟨x, hx, rfl⟩ := List.mem_map.mp hq
  by_cases h1 : x.id = p.id
  · simp [h1]
  · rw [if_neg h1] at hisp hdef ⊢
    by_cases h2 : x.isp = p.isp ∧ x.id ≠ p.id
    · rw [if_pos h2] at hdef
      simp at hdef
    · rw [if_neg h2] at hisp hdef ⊢
      exact absurd hisp (fun hc => h2 ⟨hc, h1⟩)

/-- C9: setting a stored profile as default for its provider and saving
it clears the default flag on every other profile of that provider:
querying the default profile for the provider afterwards returns
exactly the saved profile, and any profile of the provider still
marked default is that profile. -/
theorem mtuProfile_c9_single_default (now : ℚ) (db : List MTUProfile) (pid : Nat)
    (p : MTUProfile) (hfind : db.find? (fun q => q.id == pid) = some p) :
    getDefaultForISP (setDefaultAndSave now db pid) p.isp
        = some { p with isDefault := true, updatedAt := now }
    ∧ ∀ q ∈ setDefaultAndSave now db pid,
        q.isp = p.isp → q.isDefault = true → q.id = pid := by
  have hpid : p.id = pid := by
    have h := List.find?_some hfind
    simpa using h
  subst hpid
  have hset : setDefaultAndSave now db p.id
      = db.map (fun q =>
          if q.id = p.id then { p with isDefault := true, updatedAt := now }
          else if q.isp = p.isp ∧ q.id ≠ p.id then { q with isDefault := false }
          else q) := by
    simp only [setDefaultAndSave, hfind, saveProfile, profilePreSave]
    rw [if_pos (by simp)]
    rw [List.map_map]
    apply List.map_congr_left
    intro q _
    by_cases h1 : q.id = p.id
    · have hnot : ¬ (q.isp = p.isp ∧ q.id ≠ p.id) := fun hc => hc.2 h1
      simp only [Function.comp_apply, if_neg hnot, if_pos h1]
    · by_cases h2 : q.isp = p.isp ∧ q.id ≠ p.id
      · simp only [Function.comp_apply, if_pos h2]
      · simp only [Function.comp_apply, if_neg h2, if_neg h1]
  rw [hset]
  exact ⟨c9FindAux now p db hfind, c9MemAux now p db⟩

/-- Witness for C9: three stored profiles, two for provider MPT; after
setting profile 2 as default, the default query for MPT returns exactly
profile 2 and no other MPT profile is default. -/
theorem mtuProfile_c9_witness :
    getDefaultForISP
        (setDefaultAndSave 7
          [⟨1, "A", "MPT", 1400, true, 0⟩, ⟨2, "B", "MPT", 1420, false, 0⟩,
           ⟨3, "C", "OOREDOO", 1380, true, 0⟩] 2) "MPT"
      = some ⟨2, "B", "MPT", 1420, true, 7⟩
    ∧ ∀ q ∈ setDefaultAndSave 7
          [⟨1, "A", "MPT", 1400, true, 0⟩, ⟨2, "B", "MPT", 1420, false, 0⟩,
           ⟨3, "C", "OOREDOO", 1380, true, 0⟩] 2,
        q.isp = "MPT" → q.isDefault = true → q.id = 2 :=
  mtuProfile_c9_single_default 7
    [⟨1, "A", "MPT", 1400, true, 0⟩, ⟨2, "B", "MPT", 1420, false, 0⟩,
     ⟨3, "C", "OOREDOO", 1380, true, 0⟩] 2 ⟨2, "B", "MPT", 1420, false, 0⟩ (by decide)

/-- The pre-save middleware never changes the document id. -/
theorem peerPreSave_id (now : ℚ) (b : Bool) (p : Peer) :
    (peerPreSave now b p).id = p.id := by
  unfold peerPreSave
  dsimp only
  repeat' split <;> try rfl

/-- With an unmodified status path the pre-save middleware only sets
updatedAt. -/
theorem peerPreSave_false (now : ℚ) (p : Peer) :
    peerPreSave now false p = { p with updatedAt := now } := by
  simp [peerPreSave]

/-- The entry refresh rewritten as a single record update: it touches
exactly the allowed-IP list and the keepalive. -/
theorem refreshPeerFromEntry_eq (e : PeerConfigEntry) (p : Peer) :
    refreshPeerFromEntry e p =
      { p with
        allowedIPs :=
          match e.AllowedIPs with
          | some v => if v ≠ "" then (jsSplitCommaSpace v).filter (fun ip => ip ≠ "") else p.allowedIPs
          | none => p.allowedIPs,
        persistentKeepalive := jsParseIntOr p.persistentKeepalive e.PersistentKeepalive } := rfl

/-- Helper for C10: folding the sync loop never deletes or rewrites a
peer whose public key does not drive any entry.  The invariant carries
that p is stored and that p is the only stored peer with its id; the
oracle hypothesis says freshly created documents never reuse the id. -/
theorem c10FrameAux (now : ℚ) (sid : Nat) (oracle : FreshOracle) (p : Peer)
    (hfresh : ∀ n, oracle.ids n ≠ p.id) :
    ∀ (entries : List PeerConfigEntry) (cur : List Peer) (created : Nat),
      p ∈ cur → (∀ q ∈ cur, q.id = p.id → q = p) →
      (∀ e ∈ entries, e.PublicKey.getD "" = "" ∨ e.PublicKey.getD "" ≠ p.publicKey) →
      p ∈ (entries.foldl (syncOnePeer now sid oracle) (cur, created)).1
      ∧ (∀ q ∈ (entries.foldl (syncOnePeer now sid oracle) (cur, created)).1,
          q.id = p.id → q = p) := by
  intro entries
  induction entries with
  | nil => intro cur created hp hpid _; exact ⟨hp, hpid⟩
  | cons e rest ih =>
    intro cur created hp hpid hkeys
    rw [List.foldl_cons]
    have hstep : p ∈ (syncOnePeer now sid oracle (cur, created) e).1
        ∧ (∀ q ∈ (syncOnePeer now sid oracle (cur, created) e).1, q.id = p.id → q = p) := by
      by_cases hk0 : e.PublicKey.getD "" = ""
      · have hskip : syncOnePeer now sid oracle (cur, created) e = (cur, created) := by
          simp only [syncOnePeer]
          rw [if_pos hk0]
        rw [hskip]
        exact ⟨hp, hpid⟩
      · have hk : e.PublicKey.getD "" ≠ p.publicKey := by
          rcases hkeys e (by simp) with h | h
          · exact absurd h hk0
          · exact h
        cases hfind : cur.find?
            (fun q => q.publicKey == e.PublicKey.getD "" && q.server == sid) with
        | none =>
          have hone : (syncOnePeer now sid oracle (cur, created) e).1
              = cur ++ [peerPreSave now true
                  { id := oracle.ids created
                    name := oracle.names created
                    server := sid
                    publicKey := e.PublicKey.getD ""
                    privateKey := oracle.keys created
                    presharedKey := none
                    allowedIPs :=
                      match e.AllowedIPs with
                      | some v => if v ≠ "" then (jsSplitCommaSpace v).filter (fun ip => ip ≠ "") else ["0.0.0.0/0"]
                      | none => ["0.0.0.0/0"]
                    persistentKeepalive := jsParseIntOr 25 e.PersistentKeepalive
                    assignedIP := oracle.ips created
                    status := .pending
                    enabled := true
                    lastHandshake := none
                    lastSeen := none
                    firstSeen := none
                    connectionCount := 0
                    totalUptime := 0
                    updatedAt := 0 }] := by
            simp only [syncOnePeer]
            rw [if_neg hk0, hfind]
          rw [hone]
          constructor
          · exact List.mem_append_left _ hp
          · intro q hq hqid
            rcases List.mem_append.mp hq with hq | hq
            · exact hpid q hq hqid
            · exfalso
              have hqeq := List.mem_singleton.mp hq
              apply hfresh created
              rw [← hqid, hqeq, peerPreSave_id]
        | some q₀ =>
          have hq₀mem : q₀ ∈ cur := List.mem_of_find?_eq_some hfind
          have hq₀key : q₀.publicKey = e.PublicKey.getD "" := by
            have h := List.find?_some hfind
            simp at h
            exact h.1
          have hq₀ne : q₀.id ≠ p.id := by
            intro hc
            have hqp := hpid q₀ hq₀mem hc
            rw [hqp] at hq₀key
            exact hk hq₀key.symm
          have hone : (syncOnePeer now sid oracle (cur, created) e).1
              = cur.map (fun q =>
                  if q.id = (peerPreSave now false (refreshPeerFromEntry e q₀)).id
                  then peerPreSave now false (refreshPeerFromEntry e q₀) else q) := by
            simp only [syncOnePeer]
            rw [if_neg hk0, hfind]
          have hpid₂ : (peerPreSave now false (refreshPeerFromEntry e q₀)).id = q₀.id := by
            rw [peerPreSave_id, refreshPeerFromEntry_eq]
          rw [hone]
          constructor
          · have : (if p.id = (peerPreSave now false (refreshPeerFromEntry e q₀)).id
                then peerPreSave now false (refreshPeerFromEntry e q₀) else p) = p := by
              rw [if_neg (by rw [hpid₂]; exact fun hc => hq₀ne (hc.symm))]
            rw [← this]
            exact List.mem_map_of_mem _ hp
          · intro q hq hqid
            obtain ⟨x, hx, rfl⟩ := List.mem_map.mp hq
            by_cases hxid : x.id = (peerPreSave now false (refreshPeerFromEntry e q₀)).id
            · exfalso
              rw [if_pos hxid, hpid₂] at hqid
              exact hq₀ne hqid
            · rw [if_neg hxid] at hqid ⊢
              exact hpid x hx hqid
    obtain ⟨h1, h2⟩ := hstep
    exact ih _ _ h1 h2 (fun e₂ he₂ => hkeys e₂ (by simp [he₂]))

/-- C10: the reconciliation of parsed peer entries is add-or-update
only.  First, an entry with a falsy PublicKey is skipped (the sync of
the remaining entries is unchanged).  Second, a persisted peer whose
public key drives no entry is neither deleted nor modified: the very
same record is still stored afterwards.  Third, for a persisted peer
matched by an entry, the resulting collection replaces exactly that
record, refreshing only its allowed-IP list and keepalive from the
entry (plus the updatedAt stamp of the save), and leaving every other
record untouched. -/
theorem syncPeers_c10_add_or_update (now : ℚ) (sid : Nat) (oracle : FreshOracle) :
    (∀ (e : PeerConfigEntry) (entries : List PeerConfigEntry) (peers : List Peer),
      e.PublicKey.getD "" = "" →
      syncPeersToDatabase now sid oracle peers (e :: entries)
        = syncPeersToDatabase now sid oracle peers entries)
    ∧ (∀ (peers : List Peer) (entries : List PeerConfigEntry) (p : Peer),
        p ∈ peers → (∀ q ∈ peers, q.id = p.id → q = p) →
        (∀ n, oracle.ids n ≠ p.id) →
        p.publicKey ∉ entryKeys entries →
        p ∈ syncPeersToDatabase now sid oracle peers entries)
    ∧ (∀ (peers : List Peer) (e : PeerConfigEntry) (k : String) (p : Peer),
        e.PublicKey = some k → k ≠ "" →
        peers.find? (fun q => q.publicKey == k && q.server == sid) = some p →
        syncPeersToDatabase now sid oracle peers [e]
          = peers.map (fun q =>
              if q.id = p.id then
                { p with
                  allowedIPs :=
                    match e.AllowedIPs with
                    | some v =>
                      if v ≠ "" then (jsSplitCommaSpace v).filter (fun ip => ip ≠ "")
                      else p.allowedIPs
                    | none => p.allowedIPs,
                  persistentKeepalive := jsParseIntOr p.persistentKeepalive e.PersistentKeepalive,
                  updatedAt := now }
              else q)) := by
  refine ⟨?_, ?_, ?_⟩
  · intro e entries peers hk
    simp only [syncPeersToDatabase, List.foldl_cons]
    have hskip : syncOnePeer now sid oracle (peers, 0) e = (peers, 0) := by
      simp only [syncOnePeer]
      rw [if_pos hk]
    rw [hskip]
  · intro peers entries p hp hpid hfresh hkeys
    refine (c10FrameAux now sid oracle p hfresh entries peers 0 hp hpid ?_).1
    intro e he
    by_cases h0 : e.PublicKey.getD "" = ""
    · exact Or.inl h0
    · right
      intro hc
      apply hkeys
      rw [← hc]
      apply List.mem_filterMap.mpr
      refine ⟨e, he, ?_⟩
      cases hpk : e.PublicKey with
      | none => exact absurd (by rw [hpk]; rfl) h0
      | some k =>
        have hk : k ≠ "" := by
          intro hke
          apply h0
          rw [hpk, hke]
          rfl
        simp only [if_neg hk, Option.getD_some]
  · intro peers e k p hpk hkne hfind
    have hk0 : ¬ e.PublicKey.getD "" = "" := by
      rw [hpk]
      exact hkne
    have hfind₂ : peers.find? (fun q => q.publicKey == e.PublicKey.getD "" && q.server == sid)
        = some p := by
      rw [hpk]
      exact hfind
    simp only [syncPeersToDatabase, List.foldl_cons, List.foldl_nil]
    have hone : syncOnePeer now sid oracle (peers, 0) e
        = (peers.map (fun q =>
            if q.id = (peerPreSave now false (refreshPeerFromEntry e p)).id
            then peerPreSave now false (refreshPeerFromEntry e p) else q), 0) := by
      simp only [syncOnePeer]
      rw [if_neg hk0, hfind₂]
    rw [hone]
    have hupd : peerPreSave now false (refreshPeerFromEntry e p)
        = { p with
            allowedIPs :=
              match e.AllowedIPs with
              | some v =>
                if v ≠ "" then (jsSplitCommaSpace v).filter (fun ip => ip ≠ "")
                else p.allowedIPs
              | none => p.allowedIPs,
            persistentKeepalive := jsParseIntOr p.persistentKeepalive e.PersistentKeepalive,
            updatedAt := now } := by
      rw [refreshPeerFromEntry_eq, peerPreSave_false]
    rw [hupd]

/-- Witness for C10: with one stored peer, an entry without a public
key is skipped; an entry with a different public key leaves the stored
record untouched; and an entry matching the stored key refreshes
exactly the allowed-IP list and keepalive of that record. -/
theorem syncPeers_c10_witness :
    (syncPeersToDatabase 5 0
        ⟨fun n => 100 + n, fun _ => "GENKEY", fun _ => "10.0.0.9", fun _ => "Peer-t"⟩
        [peerC1] [⟨none, none, none⟩]
      = syncPeersToDatabase 5 0
          ⟨fun n => 100 + n, fun _ => "GENKEY", fun _ => "10.0.0.9", fun _ => "Peer-t"⟩
          [peerC1] [])
    ∧ peerC1 ∈ syncPeersToDatabase 5 0
        ⟨fun n => 100 + n, fun _ => "GENKEY", fun _ => "10.0.0.9", fun _ => "Peer-t"⟩
        [peerC1] [⟨some "OTHER", none, none⟩]
    ∧ syncPeersToDatabase 5 0
        ⟨fun n => 100 + n, fun _ => "GENKEY", fun _ => "10.0.0.9", fun _ => "Peer-t"⟩
        [peerC1] [⟨some "PK1", some "10.9.9.9/32", some "30"⟩]
      = [{ peerC1 with
            allowedIPs := ["10.9.9.9/32"],
            persistentKeepalive := 30,
            updatedAt := 5 }] := by
  refine ⟨?_, ?_, ?_⟩
  · exact (syncPeers_c10_add_or_update 5 0 _).1 ⟨none, none, none⟩ [] [peerC1] (by decide)
  · exact (syncPeers_c10_add_or_update 5 0 _).2.1 [peerC1] [⟨some "OTHER", none, none⟩] peerC1
      (by decide) (by decide) (fun n => by simp [peerC1]; omega) (by decide)
  · rw [(syncPeers_c10_add_or_update 5 0 _).2.2 [peerC1] ⟨some "PK1", some "10.9.9.9/32", some "30"⟩
      "PK1" peerC1 rfl (by decide) (by decide)]
    decide

/-- Rebuilding a string from its character data gives the string back. -/
theorem strMkData (s : String) : String.mk s.data = s := by
  rcases s with ⟨d⟩
  rfl

/-- A newline-free pair of strings concatenates to a newline-free
string. -/
theorem noNl_append (s t : String) (hs : '\n' ∉ s.data) (ht : '\n' ∉ t.data) :
    '\n' ∉ (s ++ t).data := by
  rw [String.data_append]
  intro hc
  rcases List.mem_append.mp hc with h | h
  · exact hs h
  · exact ht h

/-- The two-character split never returns an empty list of groups. -/
theorem splitOnSeqF_ne_nil (c₀ c₁ : Char) : ∀ (fuel : Nat) (l : List Char),
    splitOnSeqF c₀ c₁ fuel l ≠ [] := by
  intro fuel l
  match fuel, l with
  | _, [] => simp [splitOnSeqF]
  | 0, a :: as => simp [splitOnSeqF]
  | fuel + 1, [a] => simp [splitOnSeqF]
  | fuel + 1, a :: b :: rest =>
    simp only [splitOnSeqF]
    split
    · simp
    · split <;> simp

/-- Joining on the two-character separator is a left inverse of the
two-character split, for adequate fuel. -/
theorem joinSeq_splitOnSeqF (c₀ c₁ : Char) : ∀ (fuel : Nat) (l : List Char),
    l.length ≤ fuel → joinSeq c₀ c₁ (splitOnSeqF c₀ c₁ fuel l) = l := by
  intro fuel
  induction fuel with
  | zero =>
    intro l hl
    have hnil : l = [] := List.length_eq_zero.mp (Nat.le_zero.mp hl)
    subst hnil
    rfl
  | succ n ih =>
    intro l hl
    match l with
    | [] => rfl
    | [a] => rfl
    | a :: b :: rest =>
      by_cases hab : a = c₀ ∧ b = c₁
      · have hsplit : splitOnSeqF c₀ c₁ (n + 1) (a :: b :: rest)
            = [] :: splitOnSeqF c₀ c₁ n rest := by
          simp only [splitOnSeqF]
          rw [if_pos hab]
        rw [hsplit]
        obtain ⟨g, gs, hS⟩ : ∃ g gs, splitOnSeqF c₀ c₁ n rest = g :: gs := by
          cases hS : splitOnSeqF c₀ c₁ n rest with
          | nil => exact absurd hS (splitOnSeqF_ne_nil c₀ c₁ n rest)
          | cons g gs => exact ⟨g, gs, rfl⟩
        rw [hS]
        show [] ++ c₀ :: c₁ :: joinSeq c₀ c₁ (g :: gs) = a :: b :: rest
        rw [← hS, ih rest (by simp at hl; omega), hab.1, hab.2]
        rfl
      · obtain ⟨g, gs, hS⟩ : ∃ g gs, splitOnSeqF c₀ c₁ n (b :: rest) = g :: gs := by
          cases hS : splitOnSeqF c₀ c₁ n (b :: rest) with
          | nil => exact absurd hS (splitOnSeqF_ne_nil c₀ c₁ n (b :: rest))
          | cons g gs => exact ⟨g, gs, rfl⟩
        have hsplit : splitOnSeqF c₀ c₁ (n + 1) (a :: b :: rest) = (a :: g) :: gs := by
          simp only [splitOnSeqF]
          rw [if_neg hab, hS]
        rw [hsplit]
        have hjoin : joinSeq c₀ c₁ ((a :: g) :: gs) = a :: joinSeq c₀ c₁ (g :: gs) := by
          cases gs <;> simp [joinSeq]
        rw [hjoin, ← hS, ih (b :: rest) (by simp at hl ⊢; omega)]

/-- Filtering out empty strings is a no-op on groups that are all
non-empty. -/
theorem filter_mk_ne_nil (groups : List (List Char)) (h : ∀ g ∈ groups, g ≠ []) :
    (groups.map String.mk).filter (fun x => x ≠ "") = groups.map String.mk := by
  induction groups with
  | nil => rfl
  | cons g gs ih =>
    have hg : String.mk g ≠ "" := by
      intro hc
      apply h g (by simp)
      have hd := congrArg String.data hc
      simpa using hd
    simp only [List.map_cons, List.filter_cons]
    rw [if_pos (by simp [hg]), ih (fun x hx => h x (List.mem_cons_of_mem _ hx))]

/-- Trimming is the identity on data whose two ends are already free of
whitespace, stated through the two dropWhile equations. -/
theorem jsTrimChars_eq_self (l : List Char)
    (h1 : l.dropWhile Char.isWhitespace = l)
    (h2 : l.reverse.dropWhile Char.isWhitespace = l.reverse) :
    jsTrimChars l = l := by
  unfold jsTrimChars
  rw [h1, h2, List.reverse_reverse]

/-- Splitting the newline-join of newline-free lines gives the lines
back. -/
theorem jsSplit_join_lines (lines : List String) (hne : lines ≠ [])
    (h : ∀ s ∈ lines, '\n' ∉ s.data) :
    jsSplitChar '\n' (jsJoinChar '\n' lines) = lines := by
  unfold jsSplitChar jsJoinChar
  rw [show (String.mk (['\n'].intercalate (lines.map String.data))).data
      = ['\n'].intercalate (lines.map String.data) from rfl]
  rw [List.splitOn_intercalate (lines.map String.data) '\n'
      (by
        intro l hl
        obtain ⟨s, hs, rfl⟩ := List.mem_map.mp hl
        exact h s hs)
      (by simpa using hne)]
  rw [List.map_map]
  have hm : lines.map (String.mk ∘ String.data) = lines.map id :=
    List.map_congr_left (fun s _ => strMkData s)
  rw [hm, List.map_id]

/-- Processing one canonical key-value line in the interface section:
the trimmed line survives trimming, is not a section header or a
comment, splits at the first equals sign into the key and the value
(later equals signs are re-joined into the value, which covers private
keys containing padding), and the parser assigns the value to the key
in the interface object. -/
theorem parseConfigLine_keyval (st : ParseState)
    (hsec : st.currentSection = some .interfaceSection)
    (key v : String)
    (hkne : key.data ≠ [])
    (hk1 : ¬ (key.data.headD ' ').isWhitespace)
    (hk2 : key.data.headD ' ' ≠ '[')
    (hk3 : key.data.headD ' ' ≠ '#')
    (hkeq : ∀ x ∈ key.data, x ≠ '=')
    (hktrim : jsTrim (String.mk (key.data ++ [' '])) = key)
    (hv : canonicalValue v) :
    parseConfigLine st (key ++ " = " ++ v) = { st with iface := objSet st.iface key v } := by
  obtain ⟨c, cs, hk⟩ : ∃ c cs, key.data = c :: cs := by
    cases hkd : key.data with
    | nil => exact absurd hkd hkne
    | cons c cs => exact ⟨c, cs, rfl⟩
  have hc1 : ¬ c.isWhitespace := by rw [hk] at hk1; simpa using hk1
  have hc2 : c ≠ '[' := by rw [hk] at hk2; simpa using hk2
  have hc3 : c ≠ '#' := by rw [hk] at hk3; simpa using hk3
  have hvdata : v.data ≠ [] := by
    intro hc
    apply hv.1
    have hmk := congrArg String.mk hc
    rwa [strMkData] at hmk
  have hbase : (key ++ " = " ++ v).data = key.data ++ ([' ', '=', ' '] ++ v.data) := by
    simp only [String.data_append, List.append_assoc]
  have hcons : (key ++ " = " ++ v).data = c :: (cs ++ (' ' :: '=' :: ' ' :: v.data)) := by
    rw [hbase, hk]
    simp
  have hA : (key ++ " = " ++ v).data = (key.data ++ [' ', '=', ' ']) ++ v.data := by
    rw [hbase, List.append_assoc]
  have hB : (key ++ " = " ++ v).data = (key.data ++ [' ']) ++ '=' :: ' ' :: v.data := by
    rw [hbase]
    simp
  have h1 : (key ++ " = " ++ v).data.dropWhile Char.isWhitespace
      = (key ++ " = " ++ v).data := by
    rw [hcons, List.dropWhile_cons, if_neg (by simp [hc1])]
  have h2 : (key ++ " = " ++ v).data.reverse.dropWhile Char.isWhitespace
      = (key ++ " = " ++ v).data.reverse := by
    rw [hA, List.reverse_append, List.dropWhile_append, hv.2.2.1,
      if_neg (by simp [hvdata])]
  have htrimL : jsTrim (key ++ " = " ++ v) = key ++ " = " ++ v := by
    unfold jsTrim
    rw [jsTrimChars_eq_self _ h1 h2, strMkData]
  have hstart1 : startsWithStr "[" (key ++ " = " ++ v) = false := by
    unfold startsWithStr
    rw [show ("[" : String).data = ['['] from rfl, hcons]
    simp only [leadsWith, Bool.and_eq_false_imp]
    simp [beq_iff_eq]
    exact fun hc => hc2 hc.symm
  have hstart2 : startsWithStr "#" (key ++ " = " ++ v) = false := by
    unfold startsWithStr
    rw [show ("#" : String).data = ['#'] from rfl, hcons]
    simp [leadsWith, beq_iff_eq]
    exact fun hc => hc3 hc.symm
  have hLne : (key ++ " = " ++ v) ≠ "" := by
    intro hcon
    have hd := congrArg String.data hcon
    rw [hcons] at hd
    simp at hd
  have hsplitP : ((key.data ++ [' ']) ++ '=' :: ' ' :: v.data).splitOn '='
      = (key.data ++ [' ']) :: (' ' :: v.data).splitOn '=' := by
    have hfirst := List.splitOnP_first (fun x => x == '=') (key.data ++ [' '])
      (by
        intro x hx
        rcases List.mem_append.mp hx with h | h
        · simp [hkeq x h]
        · have hx1 : x = ' ' := by simpa using h
          subst hx1
          simp)
      '=' (by simp) (' ' :: v.data)
    exact hfirst
  have hsplit : jsSplitChar '=' (key ++ " = " ++ v)
      = String.mk (key.data ++ [' ']) :: (((' ' :: v.data).splitOn '=').map String.mk) := by
    unfold jsSplitChar
    rw [hB, hsplitP]
    rfl
  have hjoinval : jsJoinChar '=' (((' ' :: v.data).splitOn '=').map String.mk)
      = String.mk (' ' :: v.data) := by
    unfold jsJoinChar
    rw [List.map_map]
    have hdm : ((' ' :: v.data).splitOn '=').map (String.data ∘ String.mk)
        = ((' ' :: v.data).splitOn '=').map id :=
      List.map_congr_left (fun l _ => rfl)
    rw [hdm, List.map_id, List.intercalate_splitOn]
  have hvalue : jsTrim (String.mk (' ' :: v.data)) = v := by
    unfold jsTrim jsTrimChars
    rw [show (String.mk (' ' :: v.data)).data = ' ' :: v.data from rfl]
    rw [List.dropWhile_cons, if_pos (by simp), hv.2.1, hv.2.2.1,
      List.reverse_reverse, strMkData]
  simp only [parseConfigLine]
  rw [htrimL]
  rw [if_neg (by
    intro hcon
    rw [hstart1] at hcon
    exact absurd hcon.1 (by simp))]
  rw [if_pos ⟨hLne, by rw [hstart2]; simp⟩]
  rw [hsplit, hsec]
  simp only [hjoinval, hvalue, hktrim]

/-- C8: for a configuration text using only the canonical fields, with
canonical values (non-empty, trimmed, newline-free; numeric fields in
canonical decimal; a list field with no empty items), serializing the
server model built from the parsed text reproduces every canonical
field value byte-for-byte: the model carries exactly the parsed values,
and the serialized text contains the very same value bytes for Address,
ListenPort, PrivateKey, MTU and DNS — including private keys that
contain equals signs. -/
theorem parseSerialize_c8_roundtrip
    (iname pk : String) (run : Bool)
    (addr portS keyV mtuS dnsS : String) (p m : Nat)
    (haddr : canonicalValue addr)
    (hkeyV : canonicalValue keyV)
    (hport : canonicalValue portS)
    (hmtu : canonicalValue mtuS)
    (hdns : canonicalValue dnsS)
    (hp1 : jsParseInt portS = some p) (hp0 : p ≠ 0) (hp2 : toString p = portS)
    (hm1 : jsParseInt mtuS = some m) (hm0 : m ≠ 0) (hm2 : toString m = mtuS)
    (hgroups : ∀ g ∈ splitOnSeqF ',' ' ' dnsS.data.length dnsS.data, g ≠ []) :
    (buildServerFromConfig iname pk run
        (parseConfig (canonicalConfigText addr portS keyV mtuS dnsS))).address = addr
    ∧ (buildServerFromConfig iname pk run
        (parseConfig (canonicalConfigText addr portS keyV mtuS dnsS))).listenPort = p
    ∧ (buildServerFromConfig iname pk run
        (parseConfig (canonicalConfigText addr portS keyV mtuS dnsS))).privateKey = some keyV
    ∧ (buildServerFromConfig iname pk run
        (parseConfig (canonicalConfigText addr portS keyV mtuS dnsS))).mtu = m
    ∧ jsJoinCommaSpace (buildServerFromConfig iname pk run
        (parseConfig (canonicalConfigText addr portS keyV mtuS dnsS))).dns = dnsS
    ∧ getConfigContent (buildServerFromConfig iname pk run
        (parseConfig (canonicalConfigText addr portS keyV mtuS dnsS)))
      = jsJoinChar '\n'
          ["[Interface]",
           "Address = " ++ addr,
           "ListenPort = " ++ portS,
           "PrivateKey = " ++ keyV,
           "MTU = " ++ mtuS,
           "DNS = " ++ dnsS,
           "DisableIPv6 = true",
           ""] := by
  have hline0 : parseConfigLine { iface := [], peers := [], currentSection := none }
      "[Interface]"
      = { iface := [], peers := [], currentSection := some .interfaceSection } := by
    decide
  have hnl : ∀ s ∈ ["[Interface]",
      "Address" ++ " = " ++ addr,
      "ListenPort" ++ " = " ++ portS,
      "PrivateKey" ++ " = " ++ keyV,
      "MTU" ++ " = " ++ mtuS,
      "DNS" ++ " = " ++ dnsS], '\n' ∉ s.data := by
    intro s hs
    simp only [List.mem_cons, List.not_mem_nil, or_false] at hs
    rcases hs with rfl | rfl | rfl | rfl | rfl | rfl
    · decide
    · exact noNl_append _ _ (noNl_append _ _ (by decide) (by decide)) haddr.2.2.2
    · exact noNl_append _ _ (noNl_append _ _ (by decide) (by decide)) hport.2.2.2
    · exact noNl_append _ _ (noNl_append _ _ (by decide) (by decide)) hkeyV.2.2.2
    · exact noNl_append _ _ (noNl_append _ _ (by decide) (by decide)) hmtu.2.2.2
    · exact noNl_append _ _ (noNl_append _ _ (by decide) (by decide)) hdns.2.2.2
  have hfold : parseConfig (canonicalConfigText addr portS keyV mtuS dnsS)
      = { iface := [("Address", addr), ("ListenPort", portS), ("PrivateKey", keyV),
            ("MTU", mtuS), ("DNS", dnsS)], peers := [] } := by
    simp only [parseConfig, canonicalConfigText]
    rw [jsSplit_join_lines _ (by simp) hnl]
    rw [List.foldl_cons, hline0]
    rw [List.foldl_cons, parseConfigLine_keyval _ rfl "Address" addr (by decide)
      (by decide) (by decide) (by decide) (by decide) (by decide) haddr]
    rw [List.foldl_cons, parseConfigLine_keyval _ rfl "ListenPort" portS (by decide)
      (by decide) (by decide) (by decide) (by decide) (by decide) hport]
    rw [List.foldl_cons, parseConfigLine_keyval _ rfl "PrivateKey" keyV (by decide)
      (by decide) (by decide) (by decide) (by decide) (by decide) hkeyV]
    rw [List.foldl_cons, parseConfigLine_keyval _ rfl "MTU" mtuS (by decide)
      (by decide) (by decide) (by decide) (by decide) (by decide) hmtu]
    rw [List.foldl_cons, parseConfigLine_keyval _ rfl "DNS" dnsS (by decide)
      (by decide) (by decide) (by decide) (by decide) (by decide) hdns]
    rw [List.foldl_nil]
    simp [objSet]
  have hgA : objGet [("Address", addr), ("ListenPort", portS), ("PrivateKey", keyV),
      ("MTU", mtuS), ("DNS", dnsS)] "Address" = some addr := by
    simp [objGet, List.find?]
  have hgL : objGet [("Address", addr), ("ListenPort", portS), ("PrivateKey", keyV),
      ("MTU", mtuS), ("DNS", dnsS)] "ListenPort" = some portS := by
    simp [objGet, List.find?]
  have hgP : objGet [("Address", addr), ("ListenPort", portS), ("PrivateKey", keyV),
      ("MTU", mtuS), ("DNS", dnsS)] "PrivateKey" = some keyV := by
    simp [objGet, List.find?]
  have hgM : objGet [("Address", addr), ("ListenPort", portS), ("PrivateKey", keyV),
      ("MTU", mtuS), ("DNS", dnsS)] "MTU" = some mtuS := by
    simp [objGet, List.find?]
  have hgD : objGet [("Address", addr), ("ListenPort", portS), ("PrivateKey", keyV),
      ("MTU", mtuS), ("DNS", dnsS)] "DNS" = some dnsS := by
    simp [objGet, List.find?]
  have haddr2 : jsOrS (objGet [("Address", addr), ("ListenPort", portS),
      ("PrivateKey", keyV), ("MTU", mtuS), ("DNS", dnsS)] "Address") "10.0.0.1/24"
      = addr := by
    rw [hgA]
    simp [jsOrS, haddr.1]
  have hport2 : jsParseIntOr 51820 (objGet [("Address", addr), ("ListenPort", portS),
      ("PrivateKey", keyV), ("MTU", mtuS), ("DNS", dnsS)] "ListenPort") = p := by
    rw [hgL]
    simp [jsParseIntOr, hp1, hp0]
  have hmtu2 : jsParseIntOr 1420 (objGet [("Address", addr), ("ListenPort", portS),
      ("PrivateKey", keyV), ("MTU", mtuS), ("DNS", dnsS)] "MTU") = m := by
    rw [hgM]
    simp [jsParseIntOr, hm1, hm0]
  have hdns2 : (match objGet [("Address", addr), ("ListenPort", portS),
      ("PrivateKey", keyV), ("MTU", mtuS), ("DNS", dnsS)] "DNS" with
      | some d => if d ≠ "" then (jsSplitCommaSpace d).filter (fun x => x ≠ "")
                  else ["8.8.8.8", "8.8.4.4"]
      | none => ["8.8.8.8", "8.8.4.4"])
      = (splitOnSeqF ',' ' ' dnsS.data.length dnsS.data).map String.mk := by
    simp only [hgD]
    rw [if_pos hdns.1]
    exact filter_mk_ne_nil _ hgroups
  have hsrv : buildServerFromConfig iname pk run
      (parseConfig (canonicalConfigText addr portS keyV mtuS dnsS))
      = { id := 0, name := iname, interfaceName := iname, address := addr,
          listenPort := p, privateKey := some keyV, publicKey := pk, mtu := m,
          dns := (splitOnSeqF ',' ' ' dnsS.data.length dnsS.data).map String.mk,
          persistentKeepalive := 25,
          status := if run then .active else .inactive,
          lastStartTime := none, lastStopTime := none, totalUptime := 0,
          peerCount := 0, activePeers := 0, enableIPv6 := false,
          ispProfile := "UNKNOWN" } := by
    rw [hfold]
    simp only [buildServerFromConfig]
    rw [haddr2, hport2, hmtu2, hgP, hdns2]
  have hdnsJoin : jsJoinCommaSpace
      ((splitOnSeqF ',' ' ' dnsS.data.length dnsS.data).map String.mk) = dnsS := by
    unfold jsJoinCommaSpace
    rw [List.map_map]
    have hdm : (splitOnSeqF ',' ' ' dnsS.data.length dnsS.data).map
          (String.data ∘ String.mk)
        = (splitOnSeqF ',' ' ' dnsS.data.length dnsS.data).map id :=
      List.map_congr_left (fun l _ => rfl)
    rw [hdm, List.map_id,
      joinSeq_splitOnSeqF ',' ' ' dnsS.data.length dnsS.data (Nat.le_refl _), strMkData]
  refine ⟨?_, ?_, ?_, ?_, ?_, ?_⟩
  · rw [hsrv]
  · rw [hsrv]
  · rw [hsrv]
  · rw [hsrv]
  · rw [hsrv]
    exact hdnsJoin
  · rw [hsrv]
    simp only [getConfigContent]
    rw [if_pos hm0]
    rw [if_pos (show ((splitOnSeqF ',' ' ' dnsS.data.length dnsS.data).map String.mk) ≠ []
      by
        intro hc
        exact splitOnSeqF_ne_nil ',' ' ' dnsS.data.length dnsS.data
          (List.map_eq_nil_iff.mp hc))]
    rw [hdnsJoin, hp2, hm2]
    simp

/-- Witness for C8: a concrete canonical configuration (the private key
contains equals signs) whose parse-then-serialize round trip reproduces
all five canonical field values byte-for-byte. -/
theorem parseSerialize_c8_witness :
    (buildServerFromConfig "wg0" "PUB" false
        (parseConfig (canonicalConfigText "10.0.0.1/24" "51820" "aBcDeF=="
          "1420" "8.8.8.8, 8.8.4.4"))).address = "10.0.0.1/24"
    ∧ (buildServerFromConfig "wg0" "PUB" false
        (parseConfig (canonicalConfigText "10.0.0.1/24" "51820" "aBcDeF=="
          "1420" "8.8.8.8, 8.8.4.4"))).listenPort = 51820
    ∧ (buildServerFromConfig "wg0" "PUB" false
        (parseConfig (canonicalConfigText "10.0.0.1/24" "51820" "aBcDeF=="
          "1420" "8.8.8.8, 8.8.4.4"))).privateKey = some "aBcDeF=="
    ∧ (buildServerFromConfig "wg0" "PUB" false
        (parseConfig (canonicalConfigText "10.0.0.1/24" "51820" "aBcDeF=="
          "1420" "8.8.8.8, 8.8.4.4"))).mtu = 1420
    ∧ jsJoinCommaSpace (buildServerFromConfig "wg0" "PUB" false
        (parseConfig (canonicalConfigText "10.0.0.1/24" "51820" "aBcDeF=="
          "1420" "8.8.8.8, 8.8.4.4"))).dns = "8.8.8.8, 8.8.4.4"
    ∧ getConfigContent (buildServerFromConfig "wg0" "PUB" false
        (parseConfig (canonicalConfigText "10.0.0.1/24" "51820" "aBcDeF=="
          "1420" "8.8.8.8, 8.8.4.4")))
      = jsJoinChar '\n'
          ["[Interface]",
           "Address = " ++ "10.0.0.1/24",
           "ListenPort = " ++ "51820",
           "PrivateKey = " ++ "aBcDeF==",
           "MTU = " ++ "1420",
           "DNS = " ++ "8.8.8.8, 8.8.4.4",
           "DisableIPv6 = true",
           ""] :=
  parseSerialize_c8_roundtrip "wg0" "PUB" false "10.0.0.1/24" "51820" "aBcDeF=="
    "1420" "8.8.8.8, 8.8.4.4" 51820 1420 (by decide) (by decide) (by decide)
    (by decide) (by decide) (by decide) (by decide) (by decide) (by decide)
    (by decide) (by decide) (by decide)
